import Mathlib

/-!
Shallow embedding of `src/static/js/dac-word-rotator.js`.

The file defines the rotator's instance state (`RotState`), the operations
of the source (`shuffleArray_`, `buildWords_`, `scheduleWord_`,
`rotateWord_`, `toggleAnimation_`, the constructor `DacWordRotator` and the
entry point `DacWordRotator.initialize`), and proves the specification
claims about them.

Modelling conventions:
  * JS strings are `String`; the attribute `el.dataset.words` is
    `Option String` (`none` when the attribute is absent; the JS falsy
    test `!words` is `none` or the empty string).
  * `String.prototype.split(',')` is embedded structurally over the
    character list (`splitComma`), because it splits on every comma,
    keeps empty tokens and never trims.
  * `Math.floor(Math.random() * counter)` is an arbitrary draw reduced
    into range: `draws c % c`, where `draws : Nat → Nat` is the sequence
    of random draws (indexed by the loop counter, which is distinct at
    every iteration).
  * `window.setTimeout` returns a fresh positive integer handle; armed
    rotation timers are the `pending` list, the fire-and-forget span
    removal timers of `rotateWord_` are the `cleanup` list.  Browser
    timer ids are positive, so the JS truthiness test `if (this.timeout_)`
    is presence of the `Option`.
  * DOM span creation and class-list work inside `rotateWord_` only touches the
    host element's children and is abstracted away; `document.body.classList`
    is the `bodyClasses` list.
  * a `new DacWordRotator(null)` throws a TypeError when it reads
    `this.el_.dataset`, so the constructor takes `Option Elem` and returns
    `Except String RotState`.
-/

/-- CSS selectors/classes map of the source file. -/
def CLASSES.ACTIVE : String := "is-active"

/-- Class applied to a word element entering the view. -/
def CLASSES.ENTERING : String := "is-entering"

/-- Class applied to a word element leaving the view. -/
def CLASSES.EXITING : String := "is-exiting"

/-- Readiness class added on `document.body` at construction. -/
def CLASSES.IS_READY : String := "is-ready"

/-- Marker class used to locate the rotator host element. -/
def CLASSES.ROTATOR : String := "dac-word-rotator"

/-- Host DOM element: only the `data-words` attribute is observed by the
rotator's logic. -/
structure Elem where
  dataWords : Option String
deriving DecidableEq

/-- An armed `window.setTimeout` timer: its integer handle and its delay in
milliseconds. -/
structure Timer where
  id : Nat
  delay : Nat
deriving DecidableEq

/-- Instance state of a constructed rotator, together with the pieces of the
browser environment it interacts with (armed timers, body class list). -/
structure RotState where
  words : List String
  currentIndex : Nat
  interval : Nat
  duration : Nat
  timeout : Option Nat
  pending : List Timer
  cleanup : List Timer
  nextHandle : Nat
  bodyClasses : List String
deriving DecidableEq

/-- Embedding of `element.classList.add c`: appends `c` unless present. -/
def classListAdd (classes : List String) (c : String) : List String :=
  if c ∈ classes then classes else classes ++ [c]

/-- Embedding of JS `s.split(',')` (single-character separator): splits on
every comma, keeps empty tokens, performs no trimming.  Auxiliary recursion
over the character list with an accumulator for the current token. -/
def splitCommaAux : List Char → List Char → List String
  | [], acc => [String.mk acc.reverse]
  | c :: rest, acc =>
      if c = ',' then String.mk acc.reverse :: splitCommaAux rest []
      else splitCommaAux rest (c :: acc)

/-- JS `s.split(',')`. -/
def splitComma (s : String) : List String :=
  splitCommaAux s.data []

/-- One iteration of the shuffle loop body:
`var temp = array[counter]; array[counter] = array[index]; array[index] = temp;`
(both reads happen before the writes; the JS code reads `array[index]`
before either assignment lands on it). -/
def shuffleSwap (l : List String) (counter index : Nat) : List String :=
  let temp := l.getD counter ""
  (l.set counter (l.getD index "")).set index temp

/-- The `while (counter > 0)` loop of `shuffleArray_`, recursing on the
counter.  At counter value `c + 1` the draw is
`Math.floor(Math.random() * (c+1))`, i.e. `draws (c+1) % (c+1)`, then the
counter is decremented to `c` and positions `c` and `index` are swapped. -/
def shuffleLoop (draws : Nat → Nat) : Nat → List String → List String
  | 0, arr => arr
  | c + 1, arr =>
      let index := draws (c + 1) % (c + 1)
      shuffleLoop draws c (shuffleSwap arr c index)

/-- Embedding of `DacWordRotator.prototype.shuffleArray_`. -/
def shuffleArray_ (array : List String) (draws : Nat → Nat) : List String :=
  shuffleLoop draws array.length array

/-- Embedding of `DacWordRotator.prototype.buildWords_`: reads the `data-words`
attribute; `if (!words) return []` (attribute absent or empty string);
otherwise splits on commas and keeps the first token in place, shuffling
the rest: `[words[0]].concat(this.shuffleArray_(words.slice(1)))`. -/
def buildWords_ (dataWords : Option String) (draws : Nat → Nat) : List String :=
  match dataWords with
  | none => []
  | some w =>
      if w = "" then []
      else
        match splitComma w with
        | [] => []
        | first :: rest => first :: shuffleArray_ rest draws

/-- Embedding of `DacWordRotator.prototype.scheduleWord_`:
`this.timeout_ = window.setTimeout(this.rotateWord_.bind(this), this.interval_)`.
A fresh timer with delay `interval` is armed and its handle stored. -/
def scheduleWord_ (s : RotState) : RotState :=
  { s with
    timeout := some s.nextHandle
    pending := s.pending ++ [{ id := s.nextHandle, delay := s.interval }]
    nextHandle := s.nextHandle + 1 }

/-- Embedding of `DacWordRotator.prototype.rotateWord_`: computes
`nextIndex = currentIndex + 1`, resetting to `0` when it equals
`words.length`; performs the DOM transition (abstracted), arms the
fire-and-forget removal timeout for the previous span
(`window.setTimeout(..., this.duration_)`, recorded in `cleanup`), updates
`currentIndex` and calls `scheduleWord_`. -/
def rotateWord_ (s : RotState) : RotState :=
  let nextIndex := s.currentIndex + 1
  let nextIndex := if nextIndex = s.words.length then 0 else nextIndex
  let s1 : RotState :=
    { s with
      cleanup := s.cleanup ++ [{ id := s.nextHandle, delay := s.duration }]
      nextHandle := s.nextHandle + 1 }
  scheduleWord_ { s1 with currentIndex := nextIndex }

/-- Embedding of `DacWordRotator.prototype.toggleAnimation_` (the click handler;
`e.preventDefault()` has no effect on the modelled state):
`if (this.timeout_) { window.clearTimeout(this.timeout_); this.timeout_ = null }
else { this.scheduleWord_() }`. -/
def toggleAnimation_ (s : RotState) : RotState :=
  match s.timeout with
  | some h =>
      { s with
        pending := s.pending.filter (fun t => t.id ≠ h)
        timeout := none }
  | none => scheduleWord_ s

/-- The constructor `DacWordRotator(el)`.  With a `null` element it throws
when reading `this.el_.dataset.words`, hence the `Except`.  Otherwise it
builds the word list, initialises the fields, schedules the first rotation,
and adds the readiness class to `document.body`.  Fresh timer handles start
at 1 (browser timeout ids are positive). -/
def DacWordRotator (el : Option Elem) (draws : Nat → Nat)
    (bodyClasses : List String) : Except String RotState :=
  match el with
  | none => Except.error "TypeError: Cannot read properties of null"
  | some e =>
      let s : RotState :=
        { words := buildWords_ e.dataWords draws
          currentIndex := 0
          interval := 2500
          duration := 400
          timeout := none
          pending := []
          cleanup := []
          nextHandle := 1
          bodyClasses := bodyClasses }
      let s := scheduleWord_ s
      Except.ok { s with bodyClasses := classListAdd s.bodyClasses CLASSES.IS_READY }

/-- The document, as far as the entry point observes it: the elements
bearing the `dac-word-rotator` marker class in document order, and the body
class list. -/
structure Document where
  rotators : List Elem
  bodyClasses : List String
deriving DecidableEq

/-- Entry point `DacWordRotator.initialize`: a `document.querySelector` on
the `.dac-word-rotator` marker class (first matching element, or `null`
when none exists) followed by an unconditional `new DacWordRotator(el)` —
there is no null guard in the source. -/
def DacWordRotator.initialize (doc : Document) (draws : Nat → Nat) :
    Except String RotState :=
  DacWordRotator doc.rotators.head? draws doc.bodyClasses

/-- Event-loop firing of the armed rotation timer: the pending timer is
consumed and `rotateWord_` runs.  With no pending rotation timer nothing
fires. -/
def fireTimeout (s : RotState) : RotState :=
  match s.pending with
  | [] => s
  | _t :: rest => rotateWord_ { s with pending := rest }

/-- Timer invariant of the spec: the stored handle `timeout_` is non-null
iff exactly one rotation timer is armed, and it is that timer's handle. -/
abbrev TimerInv (s : RotState) : Prop :=
  s.pending.map Timer.id = s.timeout.toList

/-- Random-draw sequence used in concrete instantiations. -/
def d0 : Nat → Nat := fun _ => 0

/-- Host element and constructed state used in concrete instantiations. -/
def elABG : Elem := { dataWords := some "Alpha,Beta,Gamma" }

/-- The state `new DacWordRotator(elABG)` reaches with the all-zero draw
sequence. -/
def sampleConstructed : RotState :=
  { words := ["Alpha", "Gamma", "Beta"]
    currentIndex := 0
    interval := 2500
    duration := 400
    timeout := some 1
    pending := [{ id := 1, delay := 2500 }]
    cleanup := []
    nextHandle := 2
    bodyClasses := ["is-ready"] }

/-- The state reached from `sampleConstructed` by one click (paused). -/
def samplePaused : RotState :=
  { words := ["Alpha", "Gamma", "Beta"]
    currentIndex := 0
    interval := 2500
    duration := 400
    timeout := none
    pending := []
    cleanup := []
    nextHandle := 2
    bodyClasses := ["is-ready"] }

/-- Writing back the entry a list holds at an in-range position changes
nothing. -/
theorem set_getD_self (l : List String) :
    ∀ c : Nat, c < l.length → l.set c (l.getD c "") = l := by
  induction l with
  | nil => intro c hc; cases hc
  | cons a t ih =>
      intro c hc
      cases c with
      | zero => simp
      | succ k => simpa using ih k (Nat.lt_of_succ_lt_succ hc)

/-- Moving an in-range entry to the front while writing `a` in its place is
a permutation of putting `a` in front. -/
theorem cons_set_perm (a : String) :
    ∀ (t : List String) (k : Nat), k < t.length →
      List.Perm (t.getD k "" :: t.set k a) (a :: t) := by
  intro t
  induction t with
  | nil => intro k hk; cases hk
  | cons b t' ih =>
      intro k hk
      cases k with
      | zero => simpa using List.Perm.swap a b t'
      | succ k' =>
          have hk' : k' < t'.length := Nat.lt_of_succ_lt_succ hk
          have step1 : List.Perm (t'.getD k' "" :: b :: t'.set k' a)
              (b :: t'.getD k' "" :: t'.set k' a) := List.Perm.swap b (t'.getD k' "") _
          have step2 : List.Perm (b :: t'.getD k' "" :: t'.set k' a) (b :: a :: t') :=
            (ih k' hk').cons b
          have step3 : List.Perm (b :: a :: t') (a :: b :: t') := List.Perm.swap a b t'
          simpa using (step1.trans step2).trans step3

/-- Swapping the entries at two distinct in-range positions (smaller index
written first) permutes the list. -/
theorem swap_lt_perm :
    ∀ (l : List String) (i j : Nat), i < j → j < l.length →
      List.Perm ((l.set i (l.getD j "")).set j (l.getD i "")) l := by
  intro l
  induction l with
  | nil => intro i j _ hj; cases hj
  | cons a t ih =>
      intro i j hij hj
      cases j with
      | zero => cases hij
      | succ j' =>
          cases i with
          | zero =>
              simpa using cons_set_perm a t j' (Nat.lt_of_succ_lt_succ hj)
          | succ i' =>
              have := ih i' j' (Nat.lt_of_succ_lt_succ hij) (Nat.lt_of_succ_lt_succ hj)
              simpa using this.cons a

/-- One shuffle-loop swap is a permutation when the indices are in range. -/
theorem shuffleSwap_perm (l : List String) (c idx : Nat)
    (hidx : idx ≤ c) (hc : c < l.length) : List.Perm (shuffleSwap l c idx) l := by
  rcases Nat.lt_or_ge idx c with hlt | hge
  · have hcomm : (l.set c (l.getD idx "")).set idx (l.getD c "") =
        (l.set idx (l.getD c "")).set c (l.getD idx "") :=
      List.set_comm _ _ l (Nat.ne_of_gt hlt)
    unfold shuffleSwap
    rw [hcomm]
    exact swap_lt_perm l idx c hlt hc
  · have heq : idx = c := Nat.le_antisymm hidx hge
    subst heq
    unfold shuffleSwap
    rw [List.set_set, set_getD_self l idx hc]

/-- A shuffle-loop swap preserves length. -/
theorem shuffleSwap_length (l : List String) (c idx : Nat) :
    (shuffleSwap l c idx).length = l.length := by
  simp [shuffleSwap]

/-- The shuffle loop permutes its input whenever the counter is at most the
list length. -/
theorem shuffleLoop_perm (draws : Nat → Nat) :
    ∀ (n : Nat) (l : List String), n ≤ l.length → List.Perm (shuffleLoop draws n l) l := by
  intro n
  induction n with
  | zero => intro l _; exact List.Perm.refl l
  | succ c ih =>
      intro l hn
      have hidx : draws (c + 1) % (c + 1) ≤ c :=
        Nat.lt_succ_iff.mp (Nat.mod_lt _ (Nat.succ_pos c))
      have hc : c < l.length := Nat.lt_of_lt_of_le (Nat.lt_succ_self c) hn
      have hswap : List.Perm (shuffleSwap l c (draws (c + 1) % (c + 1))) l :=
        shuffleSwap_perm l c _ hidx hc
      have hlen : c ≤ (shuffleSwap l c (draws (c + 1) % (c + 1))).length := by
        rw [shuffleSwap_length]; exact Nat.le_of_lt hc
      exact (ih _ hlen).trans hswap

/-- The function `shuffleArray_` returns a permutation of its input, for every draw
sequence. -/
theorem shuffleArray_perm (l : List String) (draws : Nat → Nat) :
    List.Perm (shuffleArray_ l draws) l :=
  shuffleLoop_perm draws l.length l (Nat.le_refl _)

/-- The rotation cycle `rotateWord_` does not change the word list. -/
theorem rotateWord_words (s : RotState) : (rotateWord_ s).words = s.words := by
  simp [rotateWord_, scheduleWord_]

/-- The rotation cycle `rotateWord_` does not change the interval. -/
theorem rotateWord_interval (s : RotState) : (rotateWord_ s).interval = s.interval := by
  simp [rotateWord_, scheduleWord_]

/-- With an in-range current index, `rotateWord_` advances it by one
modulo the word-list length. -/
theorem rotateWord_index (s : RotState) (h : s.currentIndex < s.words.length) :
    (rotateWord_ s).currentIndex = (s.currentIndex + 1) % s.words.length := by
  simp only [rotateWord_, scheduleWord_]
  by_cases he : s.currentIndex + 1 = s.words.length
  · simp [he, Nat.mod_self]
  · have hlt : s.currentIndex + 1 < s.words.length :=
      Nat.lt_of_le_of_ne (Nat.succ_le_of_lt h) he
    simp [he, Nat.mod_eq_of_lt hlt]

/-- Iterating `rotateWord_` from an in-range index keeps the word list and
advances the index by the number of firings, modulo the length. -/
theorem rotateWord_iterate :
    ∀ (k : Nat) (s : RotState), s.currentIndex < s.words.length →
      (rotateWord_^[k] s).words = s.words ∧
      (rotateWord_^[k] s).currentIndex = (s.currentIndex + k) % s.words.length := by
  intro k
  induction k with
  | zero =>
      intro s h
      exact ⟨rfl, by simpa using (Nat.mod_eq_of_lt h).symm⟩
  | succ k ih =>
      intro s h
      have hpos : 0 < s.words.length := Nat.lt_of_le_of_lt (Nat.zero_le _) h
      have hw := rotateWord_words s
      have hi := rotateWord_index s h
      have hlt : (rotateWord_ s).currentIndex < (rotateWord_ s).words.length := by
        rw [hw, hi]; exact Nat.mod_lt _ hpos
      obtain ⟨ih1, ih2⟩ := ih (rotateWord_ s) hlt
      rw [Function.iterate_succ_apply]
      refine ⟨ih1.trans hw, ?_⟩
      rw [ih2, hw, hi, Nat.mod_add_mod]
      congr 1
      omega

/-- The constructor, when it succeeds, establishes the timer invariant. -/
theorem construct_TimerInv (el : Option Elem) (draws : Nat → Nat)
    (bc : List String) (s : RotState)
    (h : DacWordRotator el draws bc = Except.ok s) : TimerInv s := by
  cases el with
  | none => simp [DacWordRotator] at h
  | some e =>
      simp only [DacWordRotator, scheduleWord_, Except.ok.injEq] at h
      subst h
      rfl

/-- Firing the pending rotation timer preserves the timer invariant. -/
theorem fireTimeout_TimerInv (s : RotState) (h : TimerInv s) :
    TimerInv (fireTimeout s) := by
  have h2 : s.pending.map Timer.id = s.timeout.toList := h
  unfold fireTimeout
  cases hp : s.pending with
  | nil => exact h
  | cons t rest =>
      rw [hp] at h2
      cases ht : s.timeout with
      | none => rw [ht] at h2; simp at h2
      | some x =>
          rw [ht] at h2
          simp only [List.map_cons, Option.toList_some, List.cons.injEq] at h2
          have hrest : rest = [] := List.map_eq_nil_iff.mp h2.2
          subst hrest
          simp [TimerInv, rotateWord_, scheduleWord_]

/-- The click handler preserves the timer invariant. -/
theorem toggleAnimation_TimerInv (s : RotState) (h : TimerInv s) :
    TimerInv (toggleAnimation_ s) := by
  have h2 : s.pending.map Timer.id = s.timeout.toList := h
  unfold toggleAnimation_
  cases ht : s.timeout with
  | none =>
      rw [ht] at h2
      have h3 : s.pending.map Timer.id = [] := by simpa using h2
      have hp : s.pending = [] := List.map_eq_nil_iff.mp h3
      simp [TimerInv, scheduleWord_, hp]
  | some x =>
      rw [ht] at h2
      cases hp : s.pending with
      | nil => rw [hp] at h2; simp at h2
      | cons t rest =>
          rw [hp] at h2
          simp only [List.map_cons, Option.toList_some, List.cons.injEq] at h2
          have hrest : rest = [] := List.map_eq_nil_iff.mp h2.2
          subst hrest
          simp [TimerInv, hp, h2.1]

/-- The constructor initialises the current index to 0. -/
theorem construct_currentIndex (el : Option Elem) (draws : Nat → Nat)
    (bc : List String) (s : RotState)
    (h : DacWordRotator el draws bc = Except.ok s) : s.currentIndex = 0 := by
  cases el with
  | none => simp [DacWordRotator] at h
  | some e =>
      simp only [DacWordRotator, scheduleWord_, Except.ok.injEq] at h
      subst h
      rfl

/-- Shuffling a one-element list returns it unchanged, for every draw
sequence. -/
theorem shuffleArray_singleton (x : String) (draws : Nat → Nat) :
    shuffleArray_ [x] draws = [x] := by
  simp [shuffleArray_, shuffleLoop, shuffleSwap, Nat.mod_one]

/-- The word list built from a non-empty attribute keeps the first token of
the comma split in first position and permutes the remaining tokens. -/
theorem buildWords_head_tail (w : String) (draws : Nat → Nat) (h : w ≠ "") :
    (buildWords_ (some w) draws).head? = (splitComma w).head? ∧
    List.Perm (buildWords_ (some w) draws).tail (splitComma w).tail := by
  cases hs : splitComma w with
  | nil =>
      have hb : buildWords_ (some w) draws = [] := by
        simp [buildWords_, if_neg h, hs]
      rw [hb]
      exact ⟨rfl, List.Perm.refl _⟩
  | cons first rest =>
      have hb : buildWords_ (some w) draws = first :: shuffleArray_ rest draws := by
        simp [buildWords_, if_neg h, hs]
      rw [hb]
      exact ⟨rfl, shuffleArray_perm rest draws⟩

/-- C1 (counterexample): on a document with no element bearing the
`dac-word-rotator` marker class, the entry point does not complete without
error — the unchecked `new DacWordRotator(null)` throws when reading
`this.el_.dataset.words`. -/
theorem C1_counterexample :
    DacWordRotator.initialize { rotators := [], bodyClasses := [] } d0 =
      Except.error "TypeError: Cannot read properties of null" := rfl

/-- C1 (amended): if no element bearing the rotator marker class exists in
the document at initialization time, the entry point still attempts
construction on the null query result, and construction raises a TypeError
when it reads the element's `data-words` attribute (it does crash, and no
rotator instance is created). -/
theorem C1_no_element_crashes (doc : Document) (draws : Nat → Nat)
    (h : doc.rotators = []) :
    DacWordRotator.initialize doc draws =
      Except.error "TypeError: Cannot read properties of null" := by
  unfold DacWordRotator.initialize
  rw [h]
  rfl

/-- C1 (witness): the amended claim at a concrete empty document. -/
theorem C1_witness :
    ({ rotators := [], bodyClasses := ["page"] } : Document).rotators = [] ∧
    DacWordRotator.initialize { rotators := [], bodyClasses := ["page"] } d0 =
      Except.error "TypeError: Cannot read properties of null" :=
  ⟨rfl, C1_no_element_crashes { rotators := [], bodyClasses := ["page"] } d0 rfl⟩

/-- C2 (counterexample): constructing on a host element with no
`data-words` attribute yields the empty word list, but a rotation timer IS
armed (handle 1), refuting that no timer is armed. -/
theorem C2_counterexample :
    (DacWordRotator (some { dataWords := none }) d0 []).toOption.map RotState.words =
      some [] ∧
    (DacWordRotator (some { dataWords := none }) d0 []).toOption.map RotState.timeout =
      some (some 1) := by
  exact ⟨rfl, rfl⟩

/-- C2 (amended): for every host element whose `data-words` attribute is
absent or empty, construction yields an empty word list and completes
without throwing, but it does not skip scheduling: the constructor
unconditionally arms a rotation timer. -/
theorem C2_empty_words_still_schedules (el : Elem) (draws : Nat → Nat)
    (bc : List String) (h : el.dataWords = none ∨ el.dataWords = some "") :
    ∃ s : RotState, DacWordRotator (some el) draws bc = Except.ok s ∧
      s.words = [] ∧ s.timeout = some 1 ∧ s.pending ≠ [] := by
  have hw : buildWords_ el.dataWords draws = [] := by
    rcases h with h | h <;> simp [buildWords_, h]
  refine ⟨_, rfl, ?_, rfl, ?_⟩
  · exact hw
  · simp [DacWordRotator, scheduleWord_]

/-- C2 (witness): the amended claim at a concrete attribute-less element. -/
theorem C2_witness :
    (({ dataWords := none } : Elem).dataWords = none ∨
      ({ dataWords := none } : Elem).dataWords = some "") ∧
    ∃ s : RotState, DacWordRotator (some { dataWords := none }) d0 [] = Except.ok s ∧
      s.words = [] ∧ s.timeout = some 1 ∧ s.pending ≠ [] :=
  ⟨Or.inl rfl, C2_empty_words_still_schedules { dataWords := none } d0 [] (Or.inl rfl)⟩

/-- C3 (counterexample): for the constructed rotator on
`"Alpha,Beta,Gamma"` (n = 3, initial index 0), after 1 firing of the
rotation cycle the current index is 1, not `(1 + 1) % 3 = 2` as the claim's
formula states. -/
theorem C3_counterexample :
    DacWordRotator (some elABG) d0 [] = Except.ok sampleConstructed ∧
    sampleConstructed.currentIndex = 0 ∧
    sampleConstructed.words.length = 3 ∧
    (rotateWord_^[1] sampleConstructed).currentIndex = 1 ∧
    ¬((rotateWord_^[1] sampleConstructed).currentIndex =
        (1 + 1) % sampleConstructed.words.length) :=
  ⟨rfl, rfl, rfl, by decide, by decide⟩

/-- C3 (amended): for every non-empty word list of length n, starting from
the construction-time index 0, the current index after k firings of the
rotation cycle equals `k % n` (not `(1 + k) % n`); in particular for n = 3,
after 3 firings the index returns to its starting value 0. -/
theorem C3_index_after_k_firings (el : Option Elem) (draws : Nat → Nat)
    (bc : List String) (s : RotState) (k : Nat)
    (hok : DacWordRotator el draws bc = Except.ok s)
    (hn : 0 < s.words.length) :
    (rotateWord_^[k] s).currentIndex = k % s.words.length ∧
    (s.words.length = 3 → (rotateWord_^[3] s).currentIndex = s.currentIndex) := by
  have h0 := construct_currentIndex el draws bc s hok
  have hidx : s.currentIndex < s.words.length := by rw [h0]; exact hn
  obtain ⟨-, h2⟩ := rotateWord_iterate k s hidx
  constructor
  · rw [h2, h0, Nat.zero_add]
  · intro h3
    obtain ⟨-, h4⟩ := rotateWord_iterate 3 s hidx
    rw [h4, h0, h3]

/-- C3 (witness): the amended claim at the concrete constructed state, with
k = 5 firings. -/
theorem C3_witness :
    (DacWordRotator (some elABG) d0 [] = Except.ok sampleConstructed ∧
      0 < sampleConstructed.words.length) ∧
    (rotateWord_^[5] sampleConstructed).currentIndex =
      5 % sampleConstructed.words.length ∧
    (sampleConstructed.words.length = 3 →
      (rotateWord_^[3] sampleConstructed).currentIndex =
        sampleConstructed.currentIndex) :=
  ⟨⟨rfl, by decide⟩,
    C3_index_after_k_firings (some elABG) d0 [] sampleConstructed 5 rfl (by decide)⟩

/-- C4 (counterexample): `samplePaused` is the paused state reached from
the constructed rotator by one click; a second click does not leave the
timer cleared — it re-arms one (the handler is a toggle, not an idempotent
pause). -/
theorem C4_counterexample :
    DacWordRotator (some elABG) d0 [] = Except.ok sampleConstructed ∧
    toggleAnimation_ sampleConstructed = samplePaused ∧
    samplePaused.timeout = none ∧
    ¬((toggleAnimation_ samplePaused).timeout = none) :=
  ⟨rfl, by decide, rfl, by decide⟩

/-- C4 (amended): for every rotator state that is currently paused (timer
cleared), invoking the click handler again does not leave the timer
cleared: the handler is a toggle, so the call re-arms a rotation timer
(resume); it does not crash. -/
theorem C4_second_click_resumes (s : RotState) (h : s.timeout = none) :
    toggleAnimation_ s = scheduleWord_ s ∧
    (toggleAnimation_ s).timeout = some s.nextHandle := by
  refine ⟨?_, ?_⟩ <;> simp [toggleAnimation_, h, scheduleWord_]

/-- C4 (witness): the amended claim at the concrete paused state. -/
theorem C4_witness :
    samplePaused.timeout = none ∧
    (toggleAnimation_ samplePaused = scheduleWord_ samplePaused ∧
      (toggleAnimation_ samplePaused).timeout = some samplePaused.nextHandle) :=
  ⟨rfl, C4_second_click_resumes samplePaused rfl⟩

/-- C5 (confirmed): for every state with an in-range current index, a
single rotation cycle sets the index to `(i + 1) % n`; for a one-word list
every rotation computes next index 0 and proceeds without error. -/
theorem C5_rotate_increment (s : RotState)
    (h : s.currentIndex < s.words.length) :
    (rotateWord_ s).currentIndex = (s.currentIndex + 1) % s.words.length ∧
    (s.words.length = 1 → (rotateWord_ s).currentIndex = 0) := by
  refine ⟨rotateWord_index s h, ?_⟩
  intro h1
  rw [rotateWord_index s h, h1, Nat.mod_one]

/-- C5 (witness): the rotation-increment theorem at the concrete
constructed state. -/
theorem C5_witness :
    sampleConstructed.currentIndex < sampleConstructed.words.length ∧
    ((rotateWord_ sampleConstructed).currentIndex =
        (sampleConstructed.currentIndex + 1) % sampleConstructed.words.length ∧
      (sampleConstructed.words.length = 1 →
        (rotateWord_ sampleConstructed).currentIndex = 0)) :=
  ⟨by decide, C5_rotate_increment sampleConstructed (by decide)⟩

/-- C6 (confirmed): for every non-empty attribute value and every draw
sequence, the built word list has the same first element as the comma split
of the input, and its remaining elements are a permutation (multiset
equality) of the split's remaining elements. -/
theorem C6_shuffle_keeps_first_and_multiset (w : String) (draws : Nat → Nat)
    (h : w ≠ "") :
    (buildWords_ (some w) draws).head? = (splitComma w).head? ∧
    ((buildWords_ (some w) draws).tail : Multiset String) =
      ((splitComma w).tail : Multiset String) := by
  obtain ⟨h1, h2⟩ := buildWords_head_tail w draws h
  exact ⟨h1, Multiset.coe_eq_coe.mpr h2⟩

/-- C6 (witness): the shuffle property at a concrete attribute value and
draw sequence. -/
theorem C6_witness :
    ("a,b,c" : String) ≠ "" ∧
    ((buildWords_ (some "a,b,c") d0).head? = (splitComma "a,b,c").head? ∧
      ((buildWords_ (some "a,b,c") d0).tail : Multiset String) =
        ((splitComma "a,b,c").tail : Multiset String)) :=
  ⟨by decide, C6_shuffle_keeps_first_and_multiset "a,b,c" d0 (by decide)⟩

/-- C7 (confirmed): the stored timer handle is non-null iff exactly one
rotation timer is armed (`TimerInv`); the invariant is established by
construction, preserved by the rotation-timer firing and by each click
toggle, and it forces at most one armed rotation timer, armed iff the
handle is stored. -/
theorem C7_timer_invariant :
    (∀ (el : Option Elem) (draws : Nat → Nat) (bc : List String) (s : RotState),
        DacWordRotator el draws bc = Except.ok s → TimerInv s) ∧
    (∀ s : RotState, TimerInv s → TimerInv (fireTimeout s)) ∧
    (∀ s : RotState, TimerInv s → TimerInv (toggleAnimation_ s)) ∧
    (∀ s : RotState, TimerInv s →
        s.pending.length ≤ 1 ∧ (s.timeout.isSome ↔ s.pending ≠ [])) := by
  refine ⟨construct_TimerInv, fireTimeout_TimerInv, toggleAnimation_TimerInv, ?_⟩
  intro s h
  have h2 : s.pending.map Timer.id = s.timeout.toList := h
  cases ht : s.timeout with
  | none =>
      rw [ht] at h2
      have h3 : s.pending.map Timer.id = [] := by simpa using h2
      have hp : s.pending = [] := List.map_eq_nil_iff.mp h3
      simp [hp, ht]
  | some x =>
      rw [ht] at h2
      cases hp : s.pending with
      | nil => rw [hp] at h2; simp at h2
      | cons t rest =>
          rw [hp] at h2
          simp only [List.map_cons, Option.toList_some, List.cons.injEq] at h2
          have hrest : rest = [] := List.map_eq_nil_iff.mp h2.2
          subst hrest
          simp [hp, ht]

/-- C7 (witness): the invariant theorem applied at the concrete constructed
state. -/
theorem C7_witness :
    TimerInv (fireTimeout sampleConstructed) ∧
    TimerInv (toggleAnimation_ sampleConstructed) ∧
    (sampleConstructed.pending.length ≤ 1 ∧
      (sampleConstructed.timeout.isSome ↔ sampleConstructed.pending ≠ [])) :=
  ⟨C7_timer_invariant.2.1 sampleConstructed (by decide),
    C7_timer_invariant.2.2.1 sampleConstructed (by decide),
    C7_timer_invariant.2.2.2 sampleConstructed (by decide)⟩

/-- C8 (confirmed): from a running state (timer armed, invariant holding),
clicking pauses (timer cleared) and clicking again restores the running
state: a single fresh timer is armed whose delay is the full interval — a
fresh countdown, not a continuation. -/
theorem C8_toggle_roundtrip (s : RotState) (x : Nat) (hinv : TimerInv s)
    (ht : s.timeout = some x) :
    (toggleAnimation_ s).timeout = none ∧
    (toggleAnimation_ (toggleAnimation_ s)).timeout = some s.nextHandle ∧
    (toggleAnimation_ (toggleAnimation_ s)).pending =
      [{ id := s.nextHandle, delay := s.interval }] := by
  have h2 : s.pending.map Timer.id = s.timeout.toList := hinv
  rw [ht] at h2
  cases hp : s.pending with
  | nil => rw [hp] at h2; simp at h2
  | cons t rest =>
      rw [hp] at h2
      simp only [List.map_cons, Option.toList_some, List.cons.injEq] at h2
      have hrest : rest = [] := List.map_eq_nil_iff.mp h2.2
      subst hrest
      refine ⟨?_, ?_, ?_⟩ <;>
        simp [toggleAnimation_, scheduleWord_, ht, hp, h2.1]

/-- C8 (witness): the toggle round-trip at the concrete constructed state. -/
theorem C8_witness :
    (TimerInv sampleConstructed ∧ sampleConstructed.timeout = some 1) ∧
    ((toggleAnimation_ sampleConstructed).timeout = none ∧
      (toggleAnimation_ (toggleAnimation_ sampleConstructed)).timeout =
        some sampleConstructed.nextHandle ∧
      (toggleAnimation_ (toggleAnimation_ sampleConstructed)).pending =
        [{ id := sampleConstructed.nextHandle,
           delay := sampleConstructed.interval }]) :=
  ⟨⟨by decide, rfl⟩, C8_toggle_roundtrip sampleConstructed 1 (by decide) rfl⟩

/-- C9 (confirmed): construction adds the `is-ready` class to the body
class list, and no operation of the component (rotation cycle, scheduling,
click toggle, timer firing) ever changes the body class list, so the flag
is never reverted in any state reachable after construction. -/
theorem C9_ready_flag_one_way :
    (∀ (el : Elem) (draws : Nat → Nat) (bc : List String) (s : RotState),
        DacWordRotator (some el) draws bc = Except.ok s →
          CLASSES.IS_READY ∈ s.bodyClasses) ∧
    (∀ s : RotState,
        (rotateWord_ s).bodyClasses = s.bodyClasses ∧
        (scheduleWord_ s).bodyClasses = s.bodyClasses ∧
        (toggleAnimation_ s).bodyClasses = s.bodyClasses ∧
        (fireTimeout s).bodyClasses = s.bodyClasses) := by
  constructor
  · intro el draws bc s h
    simp only [DacWordRotator, scheduleWord_, Except.ok.injEq] at h
    subst h
    show CLASSES.IS_READY ∈ classListAdd bc CLASSES.IS_READY
    unfold classListAdd
    split
    · assumption
    · simp
  · intro s
    refine ⟨?_, ?_, ?_, ?_⟩
    · simp [rotateWord_, scheduleWord_]
    · simp [scheduleWord_]
    · unfold toggleAnimation_
      cases s.timeout <;> simp [scheduleWord_]
    · unfold fireTimeout
      cases s.pending <;> simp [rotateWord_, scheduleWord_]

/-- C9 (witness): the readiness flag is present in the concrete constructed
state. -/
theorem C9_witness : CLASSES.IS_READY ∈ sampleConstructed.bodyClasses :=
  C9_ready_flag_one_way.1 elABG d0 [] sampleConstructed rfl

/-- C10 (counterexample): for the attribute value `"A,B,C"` and the
all-zero draw sequence the built word list is `["A", "C", "B"]`, which is
not exactly the comma split `["A", "B", "C"]` — the tokens after the first
are shuffled, so the built list is not literally the split. -/
theorem C10_counterexample :
    buildWords_ (some "A,B,C") d0 = ["A", "C", "B"] ∧
    splitComma "A,B,C" = ["A", "B", "C"] ∧
    ¬(buildWords_ (some "A,B,C") d0 = splitComma "A,B,C") :=
  ⟨by decide, by decide, by decide⟩

/-- C10 (amended): for every non-empty value s of the `data-words`
attribute, the built word list's tokens are the split of s on every comma,
with no whitespace trimming and with empty tokens kept as empty-string
words — the first token stays first and the remaining tokens are permuted
by the shuffle; in particular "A," yields exactly the two-element list
["A", ""] for every draw sequence, so a trailing comma or a doubled comma
produces blank rotation entries. -/
theorem C10_split_semantics :
    (∀ draws : Nat → Nat, buildWords_ (some "A,") draws = ["A", ""]) ∧
    splitComma "a, b" = ["a", " b"] ∧
    splitComma "A,,B" = ["A", "", "B"] ∧
    (∀ (w : String) (draws : Nat → Nat), w ≠ "" →
      (buildWords_ (some w) draws).head? = (splitComma w).head? ∧
      List.Perm (buildWords_ (some w) draws).tail (splitComma w).tail) := by
  refine ⟨?_, by decide, by decide, buildWords_head_tail⟩
  intro draws
  have hb : buildWords_ (some "A,") draws = "A" :: shuffleArray_ [""] draws := rfl
  rw [hb, shuffleArray_singleton]

/-- C10 (witness): the amended claim's split/permutation part at a concrete
attribute value and draw sequence. -/
theorem C10_witness :
    ("X,Y" : String) ≠ "" ∧
    ((buildWords_ (some "X,Y") d0).head? = (splitComma "X,Y").head? ∧
      List.Perm (buildWords_ (some "X,Y") d0).tail (splitComma "X,Y").tail) :=
  ⟨by decide, C10_split_semantics.2.2.2 "X,Y" d0 (by decide)⟩
